import Mathlib

/-!
# Verification of the Cashflow kirana-store core (src/app.py)

Shallow embedding of the text-to-transaction extractor
(`parse_transaction_text`), the three analysis passes
(`cash_flow_forecast`, `inventory_alert`, `fraud_detection`), the alert
aggregation, and the `process_input` request pipeline, together with
theorems settling the specification claims.

Modelling conventions:
* Python floats are idealised as exact rationals (ℚ); `numpy.std`, which
  takes a real square root, is treated at the statement level with
  `Real.sqrt`, while the executable embedding uses the equivalent
  squared-comparison and an integer-square-root computation, both proved
  correct against the `Real.sqrt` formulation.
* Python regex classes `\d` and `\s` are modelled over their ASCII
  ranges, and `str.lower` as ASCII case folding; all catalog words,
  currency tokens and unit words in the source are ASCII.
* SQLite rows are lists of structures; `INSERT OR REPLACE` on the
  `item_name` unique key deletes the conflicting row and appends the
  replacement; a JSON object field that is absent is an `Option` that is
  `none`; timestamps are day numbers (ℕ), so the 30-day window filter
  `timestamp >= date(now, -30 days)` becomes `now ≤ t + 30`.
* A Python `ZeroDivisionError` (the only exception reachable in the
  embedded fragment) is modelled with `Except`; the enclosing
  `try/except` of `process_input` returns the 500 branch and, since the
  sqlite connection is never committed on that path, leaves the store
  unchanged.
-/

namespace Cashflow

/-! ## ASCII character helpers -/

/-- ASCII case folding, modelling `str.lower()` on the ASCII range. -/
def toLowerAscii (c : Char) : Char :=
  if 'A' ≤ c ∧ c ≤ 'Z' then Char.ofNat (c.toNat + 32) else c

/-- Python regex `\s`, ASCII range: space, tab, newline, carriage return,
vertical tab, form feed. -/
def isSpaceC (c : Char) : Bool :=
  c = ' ' || c = '\t' || c = '\n' || c = '\r' || c = '\x0b' || c = '\x0c'

/-- Numeric value of a run of ASCII digits (`int(...)` on the matched
group). -/
def digitsVal (ds : List Char) : ℕ :=
  ds.foldl (fun a c => 10 * a + (c.toNat - '0'.toNat)) 0

/-- Skip `\s*` (maximal munch; the following regex element in every use
site is not a space, so no backtracking into `\s*` is ever needed). -/
def dropSpaces (l : List Char) : List Char := l.dropWhile isSpaceC

/-- Does `needle` occur as a contiguous substring of `hay`?  Models the
Python `in` operator on strings. -/
def containsSub (n : List Char) : List Char → Bool
  | [] => n.isEmpty
  | c :: rest => n.isPrefixOf (c :: rest) || containsSub n rest

/-! ## The amount regex

`(?:rs\.?|rupees?|₹)\s*(\d+(?:\.\d{2})?)|(\d+(?:\.\d{2})?)\s*(?:rs\.?|rupees?|₹)`

`re.search` scans start positions left to right; at each position the
first alternative is tried before the second.  Inside an alternative the
token alternation `rs\.?|rupees?|₹` expands, in backtracking order, to
the prefixes `rs.`, `rs`, `rupees`, `rupee`, `₹`. -/

/-- The currency-token candidates of `rs\.?|rupees?|₹`, in the order the
regex engine tries them. -/
def currencyTokens : List (List Char) :=
  [['r', 's', '.'], ['r', 's'],
   ['r', 'u', 'p', 'e', 'e', 's'], ['r', 'u', 'p', 'e', 'e'], ['₹']]

/-- Match `\d+(?:\.\d{2})?` at the head of `l`: a maximal nonempty digit
run, then `.dd` exactly when a dot and two digits follow.  Returns the
numeric value of the matched literal (`float(...)` idealised over ℚ)
and the remaining input.  (Shrinking the greedy `\d+` or dropping a
present `.dd` can never rescue a failing continuation, because the
continuation in both alternatives starts with `\s*` followed by a
currency token, neither of which matches a digit or a dot.) -/
def parseNumber (l : List Char) : Option (ℚ × List Char) :=
  if (l.takeWhile Char.isDigit).isEmpty then none
  else
    match l.dropWhile Char.isDigit with
    | '.' :: a :: b :: r =>
        if a.isDigit ∧ b.isDigit then
          some ((digitsVal (l.takeWhile Char.isDigit) : ℚ) + (digitsVal [a, b] : ℚ) / 100, r)
        else some ((digitsVal (l.takeWhile Char.isDigit) : ℚ), '.' :: a :: b :: r)
    | rest => some ((digitsVal (l.takeWhile Char.isDigit) : ℚ), rest)

/-- First alternative (`token \s* number`) at the current position:
try each currency-token candidate in regex order and run the
continuation after it. -/
def alt1Tokens : List (List Char) → List Char → Option ℚ
  | [], _ => none
  | t :: ts, l =>
    if t.isPrefixOf l then
      match parseNumber (dropSpaces (l.drop t.length)) with
      | some (v, _) => some v
      | none => alt1Tokens ts l
    else alt1Tokens ts l

/-- Does a currency token start here?  (End of pattern, so prefix
existence suffices.) -/
def startsWithCurrency (l : List Char) : Bool :=
  currencyTokens.any (fun t => t.isPrefixOf l)

/-- Second alternative (`number \s* token`) at the current position. -/
def matchAlt2 (l : List Char) : Option ℚ :=
  match parseNumber l with
  | some (v, rest) => if startsWithCurrency (dropSpaces rest) then some v else none
  | none => none

/-- The whole amount pattern at one start position: alternative 1 is
preferred, matching `amount_match.group(1) or amount_match.group(2)`
(a matched group is a nonempty digit string, hence truthy). -/
def matchAmountAt (l : List Char) : Option ℚ :=
  match alt1Tokens currencyTokens l with
  | some v => some v
  | none => matchAlt2 l

/-- `re.search` for the amount pattern: first start position (left to
right) at which the pattern matches.  (The empty suffix can never match,
so stopping at `[]` is faithful.) -/
def findAmount : List Char → Option ℚ
  | [] => none
  | c :: rest =>
    match matchAmountAt (c :: rest) with
    | some v => some v
    | none => findAmount rest

/-! ## The quantity regex  `(\d+)\s*(?:kg|kg\.|kilos?|packets?|units?|pieces?)` -/

/-- Unit-word candidates of the quantity pattern (the optional `.` and
`s` suffixes expanded); the unit ends the pattern, so only prefix
existence matters. -/
def unitTokens : List (List Char) :=
  [['k', 'g'], ['k', 'g', '.'],
   ['k', 'i', 'l', 'o'], ['k', 'i', 'l', 'o', 's'],
   ['p', 'a', 'c', 'k', 'e', 't'], ['p', 'a', 'c', 'k', 'e', 't', 's'],
   ['u', 'n', 'i', 't'], ['u', 'n', 'i', 't', 's'],
   ['p', 'i', 'e', 'c', 'e'], ['p', 'i', 'e', 'c', 'e', 's']]

/-- The quantity pattern at one start position: a maximal nonempty digit
run, `\s*`, then a unit word. -/
def matchQuantityAt (l : List Char) : Option ℕ :=
  let ds := l.takeWhile Char.isDigit
  if ds.isEmpty then none
  else if unitTokens.any (fun t => t.isPrefixOf (dropSpaces (l.dropWhile Char.isDigit))) then
    some (digitsVal ds)
  else none

/-- `re.search` for the quantity pattern. -/
def findQuantity : List Char → Option ℕ
  | [] => none
  | c :: rest =>
    match matchQuantityAt (c :: rest) with
    | some v => some v
    | none => findQuantity rest

/-! ## parse_transaction_text -/

/-- The purchase keywords of the type check (substring match). -/
def purchaseKeywords : List (List Char) :=
  [['b', 'u', 'y'], ['p', 'u', 'r', 'c', 'h', 'a', 's', 'e'],
   ['b', 'o', 'u', 'g', 'h', 't'], ['s', 'u', 'p', 'p', 'l', 'i', 'e', 'r']]

/-- The fixed item catalog, in source order (the scan order is the
tie-break). -/
def itemCatalog : List String :=
  ["rice", "wheat", "sugar", "oil", "dal", "tea", "salt", "milk", "biscuit"]

/-- The structured result of `parse_transaction_text`. -/
structure Parsed where
  item : String
  amount : ℚ
  type : String
  quantity : ℕ
  payment_method : String
deriving DecidableEq

/-- `parse_transaction_text`: lowercase the text, then extract amount
(default 0.0), type (default sale, purchase on any keyword substring),
item (first catalog entry occurring anywhere, default general) and
quantity (default 1); payment method is the constant cash. -/
def parse_transaction_text (text : String) : Parsed :=
  let t := text.toList.map toLowerAscii
  { item := (itemCatalog.find? (fun i => containsSub i.toList t)).getD "general"
    amount := (findAmount t).getD 0
    type := if purchaseKeywords.any (fun w => containsSub w t) then "purchase" else "sale"
    quantity := (findQuantity t).getD 1
    payment_method := "cash" }

/-! ## Cash-flow forecast -/

/-- Result of `cash_flow_forecast`.  The source returns a dict that may
lack the `daily_avg_flow` key; field absence is modelled as `none`. -/
structure CFResult where
  shortage_predicted : Bool
  daily_avg_flow : Option ℚ
  recommendation : String
deriving DecidableEq

/-- Python `round(x, 2)` idealised over ℚ: round at the second decimal
place.  (Ties, which in the source depend on the binary float
representation, are resolved upward.) -/
def pyRound2 (q : ℚ) : ℚ := (⌊100 * q + 1 / 2⌋ : ℚ) / 100

/-- `cash_flow_forecast` on the trailing-30-day window of (amount, type)
pairs: empty window gives the insufficient-data result with no
`daily_avg_flow` field; otherwise net flow = sales − purchases, daily
average = net / 30 (fixed divisor), shortage iff that average is
negative, and the returned `daily_avg_flow` is the average rounded to
two decimals. -/
def cash_flow_forecast (transactions : List (ℚ × String)) : CFResult :=
  if transactions.isEmpty then
    { shortage_predicted := false, daily_avg_flow := none,
      recommendation := "Insufficient data" }
  else
    let sales := ((transactions.filter (fun t => t.2 = "sale")).map (fun t => t.1)).sum
    let purchases := ((transactions.filter (fun t => t.2 = "purchase")).map (fun t => t.1)).sum
    let daily_avg := (sales - purchases) / 30
    let shortage_predicted := decide (daily_avg < 0)
    { shortage_predicted := shortage_predicted
      daily_avg_flow := some (pyRound2 daily_avg)
      recommendation :=
        if shortage_predicted then
          "Cash shortage expected. Consider delaying purchases or securing short-term loan."
        else "No action needed" }

/-! ## Inventory monitor -/

/-- A row of the `inventory` table (the autoincrement id, which no core
logic reads, is omitted). -/
structure InvRow where
  item_name : String
  quantity : ℤ
  reorder_level : ℤ
  unit_price : ℚ
  last_updated : ℕ
deriving DecidableEq

/-- An entry of `items_to_reorder`. -/
structure ReorderItem where
  item : String
  current : ℤ
  reorder_level : ℤ
deriving DecidableEq

/-- Result of `inventory_alert`. -/
structure InvResult where
  stock_low : Bool
  items_to_reorder : List ReorderItem
deriving DecidableEq

/-- `inventory_alert`: select the rows with quantity ≤ reorder_level in
table order; stock is low iff the selection is nonempty. -/
def inventory_alert (inventory : List InvRow) : InvResult :=
  let low_stock_items := inventory.filter (fun r => decide (r.quantity ≤ r.reorder_level))
  { stock_low := decide (0 < low_stock_items.length)
    items_to_reorder :=
      low_stock_items.map (fun r => ⟨r.item_name, r.quantity, r.reorder_level⟩) }

/-! ## Fraud detection

`np.mean` and `np.std` (population convention, divisor n) idealised over
exact arithmetic.  The float comparison `transaction_amount > mean + 3*std`
is embedded as the equivalent squared rational comparison (std is a real
square root); the reason string renders `round(threshold, 2)` through an
integer-square-root computation.  Both are proved equal to the
`Real.sqrt` formulation in the claim theorems. -/

/-- `np.mean` over ℚ (0 on the empty list, as a division by zero). -/
def listMean (l : List ℚ) : ℚ := l.sum / l.length

/-- The population variance `np.var` (square of `np.std`), divisor n. -/
def listPopVar (l : List ℚ) : ℚ :=
  ((l.map (fun x => (x - listMean l) ^ 2)).sum) / l.length

/-- The comparison `transaction_amount > mean + 3 * std` as a decidable
rational test: equivalent because `3 * std = √(9·var) ≥ 0`. -/
def fraudSuspectedB (current : ℚ) (l : List ℚ) : Bool :=
  decide (listMean l < current ∧ 9 * listPopVar l < (current - listMean l) ^ 2)

/-- `⌊A + √W⌋` computed by integer square root (for `0 ≤ W`): with
`s = ⌊√(W.num·W.den)⌋` the floor is `k0 = ⌊A + s/W.den⌋` or `k0 + 1`,
and it is `k0 + 1` exactly when `(k0 + 1 - A)² ≤ W`. -/
def floorAddSqrtQ (A W : ℚ) : ℤ :=
  let s : ℕ := Nat.sqrt (W.num.toNat * W.den)
  let k0 : ℤ := ⌊A + (s : ℚ) / (W.den : ℚ)⌋
  if ((k0 + 1 : ℚ) - A) ^ 2 ≤ W then k0 + 1 else k0

/-- `round(mean + 3*std, 2)` of the history, as an exact rational:
`⌊100·(μ + 3σ) + 1/2⌋ / 100` with `100·(μ + 3σ) + 1/2 =
(100μ + 1/2) + √(90000·var)`. -/
def round2Threshold (l : List ℚ) : ℚ :=
  (floorAddSqrtQ (100 * listMean l + 1 / 2) (90000 * listPopVar l) : ℚ) / 100

/-- Decimal rendering of a rational with at most two decimal places,
matching the Python float formatting of the values the pipeline prints
(`160.0`, `159.5`, `159.95`). -/
def pyFloatStr (q : ℚ) : String :=
  let sgn := if q < 0 then "-" else ""
  let a := |q|
  let ip : ℕ := (⌊a⌋).toNat
  let c : ℕ := (⌊(a - (ip : ℚ)) * 100⌋).toNat
  if c = 0 then sgn ++ toString ip ++ ".0"
  else if c % 10 = 0 then sgn ++ toString ip ++ "." ++ toString (c / 10)
  else if c < 10 then sgn ++ toString ip ++ ".0" ++ toString c
  else sgn ++ toString ip ++ "." ++ toString c

/-- Result of `fraud_detection`. -/
structure FraudResult where
  fraud_suspected : Bool
  reason : String
deriving DecidableEq

/-- `fraud_detection`: with fewer than 10 historical sale amounts,
insufficient data; otherwise flag the transaction iff it exceeds
mean + 3·std (population std) of the history, with the anomaly reason
carrying the amount and the threshold rounded to two decimals, and a
fixed message otherwise. -/
def fraud_detection (transaction_amount : ℚ) (amounts : List ℚ) : FraudResult :=
  if amounts.length < 10 then
    { fraud_suspected := false, reason := "Insufficient data" }
  else
    let suspected := fraudSuspectedB transaction_amount amounts
    { fraud_suspected := suspected
      reason :=
        if suspected then
          "Transaction amount (₹" ++ pyFloatStr transaction_amount ++
            ") exceeds normal range (₹" ++ pyFloatStr (round2Threshold amounts) ++ ")"
        else "Transaction within normal range" }

/-! ## Alert aggregation (lines 236-258 of process_input) -/

/-- One aggregated alert. -/
structure Alert where
  type : String
  message : String
  severity : String
deriving DecidableEq

/-- The alert-aggregation block of `process_input`: cash-flow alert
(severity high) if shortage is predicted, then one inventory alert
(severity medium) per reorder item when stock is low, then a fraud
alert (severity critical) if fraud is suspected. -/
def generate_alerts (cf : CFResult) (inv : InvResult) (fr : FraudResult) : List Alert :=
  (if cf.shortage_predicted then
    [⟨"cash_flow", cf.recommendation, "high"⟩] else [])
  ++ (if inv.stock_low then
    inv.items_to_reorder.map
      (fun it => ⟨"inventory", "Low stock: " ++ it.item ++ " - Reorder needed", "medium"⟩)
    else [])
  ++ (if fr.fraud_suspected then
    [⟨"fraud", fr.reason, "critical"⟩] else [])

/-! ## The ledger state and the request pipeline -/

/-- A row of the `transactions` table (timestamps as day numbers; the
autoincrement id is omitted). -/
structure TransRow where
  timestamp : ℕ
  item : String
  amount : ℚ
  type : String
  payment_method : String
  customer_name : String
deriving DecidableEq

/-- The persisted store: the append-only transactions table and the
inventory table keyed by `item_name`. -/
structure DBState where
  transactions : List TransRow
  inventory : List InvRow
deriving DecidableEq

/-- The `SELECT amount, type ... WHERE timestamp >= date(now, -30 days)`
window read by the forecaster. -/
def windowLast30 (now : ℕ) (txs : List TransRow) : List (ℚ × String) :=
  (txs.filter (fun r => decide (now ≤ r.timestamp + 30))).map (fun r => (r.amount, r.type))

/-- The `SELECT amount FROM transactions WHERE type = "sale"` read by
the fraud detector (all history, no window). -/
def saleAmounts (txs : List TransRow) : List ℚ :=
  (txs.filter (fun r => decide (r.type = "sale"))).map (fun r => r.amount)

/-- Row lookup by the `item_name` unique key. -/
def lookupInv (inv : List InvRow) (name : String) : Option InvRow :=
  inv.find? (fun r => decide (r.item_name = name))

/-- Delete every row with the given key (`INSERT OR REPLACE` conflict
deletion; the unique constraint means at most one). -/
def removeItem (name : String) : List InvRow → List InvRow
  | [] => []
  | r :: rest =>
    if r.item_name = name then removeItem name rest else r :: removeItem name rest

/-- The sale branch: `UPDATE inventory SET quantity = quantity - ?
WHERE item_name = ?` (no row created when the item is absent). -/
def saleUpdate (inv : List InvRow) (name : String) (q : ℤ) : List InvRow :=
  inv.map (fun r => if r.item_name = name then { r with quantity := r.quantity - q } else r)

/-- The purchase branch: `INSERT OR REPLACE INTO inventory VALUES
(?, COALESCE((SELECT quantity ...), 0) + ?, 10, ?, ?)` — the old row (if
any) is deleted and the replacement row carries the summed quantity, a
reorder_level of 10 unconditionally, and fresh unit_price and
last_updated. -/
def purchaseUpsert (inv : List InvRow) (name : String) (q : ℤ) (unit_price : ℚ)
    (ts : ℕ) : List InvRow :=
  let oldQty := ((lookupInv inv name).map (fun r => r.quantity)).getD 0
  removeItem name inv ++ [⟨name, oldQty + q, 10, unit_price, ts⟩]

/-- Python float division, raising `ZeroDivisionError` on a zero
divisor. -/
def pyDivQ (a b : ℚ) : Except String ℚ :=
  if b = 0 then Except.error "float division by zero" else Except.ok (a / b)

/-- The inventory write of `process_input`: sale decrements, purchase
upserts with unit price amount/quantity (an unguarded division). -/
def invUpdate (inv : List InvRow) (p : Parsed) (now : ℕ) : Except String (List InvRow) :=
  if p.type = "sale" then Except.ok (saleUpdate inv p.item (p.quantity : ℤ))
  else (pyDivQ p.amount (p.quantity : ℚ)).map
    (fun up => purchaseUpsert inv p.item (p.quantity : ℤ) up now)

/-- The success body of `process_input`. -/
structure ApiOk where
  parsed_transaction : Parsed
  cash_flow : CFResult
  inventory : InvResult
  fraud : FraudResult
  alerts : List Alert
deriving DecidableEq

/-- The three response shapes of `process_input`: the 200 success body,
the 400 no-input error, and the 500 catch-all error carrying the
exception message. -/
inductive ApiResponse where
  | ok (body : ApiOk)
  | clientError (msg : String)
  | serverError (msg : String)
deriving DecidableEq

/-- The `/api/process-input` handler: reject missing/empty text with the
400 branch before any processing; otherwise parse, append the
transaction row, update inventory (a `ZeroDivisionError` in the purchase
branch aborts to the 500 branch with the store unchanged, the sqlite
transaction never being committed), then run the three agents on the
committed state and aggregate their alerts.  A missing `text` key
arrives here as `""` via `data.get('text', '')`. -/
def process_input (now : ℕ) (st : DBState) (input_text : String) :
    ApiResponse × DBState :=
  if input_text = "" then (ApiResponse.clientError "No input provided", st)
  else
    let p := parse_transaction_text input_text
    match invUpdate st.inventory p now with
    | Except.error e => (ApiResponse.serverError e, st)
    | Except.ok inv' =>
      let st' : DBState :=
        ⟨st.transactions ++ [⟨now, p.item, p.amount, p.type, p.payment_method, "Customer"⟩],
         inv'⟩
      let cf_result := cash_flow_forecast (windowLast30 now st'.transactions)
      let inv_result := inventory_alert st'.inventory
      let fraud_result := fraud_detection p.amount (saleAmounts st'.transactions)
      (ApiResponse.ok
        ⟨p, cf_result, inv_result, fraud_result,
         generate_alerts cf_result inv_result fraud_result⟩, st')

/-! ## Theorems

### C1: extractor output bounds -/

theorem parseNumber_nonneg {l r : List Char} {v : ℚ}
    (h : parseNumber l = some (v, r)) : 0 ≤ v := by
  unfold parseNumber at h
  split at h
  · exact absurd h (by simp)
  · split at h
    · split at h
      · obtain ⟨rfl, -⟩ := Prod.mk.injEq .. ▸ Option.some.inj h
        positivity
      · obtain ⟨rfl, -⟩ := Prod.mk.injEq .. ▸ Option.some.inj h
        positivity
    · obtain ⟨rfl, -⟩ := Prod.mk.injEq .. ▸ Option.some.inj h
      positivity

theorem alt1Tokens_nonneg {v : ℚ} :
    ∀ (ts : List (List Char)) (l : List Char), alt1Tokens ts l = some v → 0 ≤ v := by
  intro ts
  induction ts with
  | nil => intro l h; exact absurd h (by simp [alt1Tokens])
  | cons t ts ih =>
    intro l h
    unfold alt1Tokens at h
    split at h
    · split at h
      · next heq => exact Option.some.inj h ▸ parseNumber_nonneg heq
      · exact ih l h
    · exact ih l h

theorem matchAlt2_nonneg {l : List Char} {v : ℚ} (h : matchAlt2 l = some v) : 0 ≤ v := by
  unfold matchAlt2 at h
  split at h
  · next heq =>
    split at h
    · exact Option.some.inj h ▸ parseNumber_nonneg heq
    · exact absurd h (by simp)
  · exact absurd h (by simp)

theorem matchAmountAt_nonneg {l : List Char} {v : ℚ}
    (h : matchAmountAt l = some v) : 0 ≤ v := by
  unfold matchAmountAt at h
  split at h
  · next heq => exact Option.some.inj h ▸ alt1Tokens_nonneg currencyTokens l heq
  · exact matchAlt2_nonneg h

theorem findAmount_nonneg {v : ℚ} :
    ∀ l : List Char, findAmount l = some v → 0 ≤ v := by
  intro l
  induction l with
  | nil => intro h; exact absurd h (by simp [findAmount])
  | cons c rest ih =>
    intro h
    unfold findAmount at h
    split at h
    · next heq => exact Option.some.inj h ▸ matchAmountAt_nonneg heq
    · exact ih h

/-- C1 (amended): every transaction handed to the ledger write path has
amount ≥ 0 and quantity ≥ 0.  (The claimed lower bound quantity ≥ 1
fails: an explicit zero quantity phrase extracts quantity = 0, see the
counterexample.) -/
theorem extractor_output_bounds (text : String) :
    0 ≤ (parse_transaction_text text).amount ∧
      0 ≤ (parse_transaction_text text).quantity := by
  refine ⟨?_, Nat.zero_le _⟩
  show 0 ≤ (findAmount (text.toList.map toLowerAscii)).getD 0
  cases h : findAmount (text.toList.map toLowerAscii) with
  | none => simp
  | some v => simpa using findAmount_nonneg _ h

/-- C1 (counterexample): the claimed invariant quantity ≥ 1 fails — the
quantity regex matches an explicit zero, so the extractor can hand the
ledger a transaction with quantity = 0. -/
theorem extractor_quantity_counterexample :
    ¬ ∀ text : String, 1 ≤ (parse_transaction_text text).quantity := by
  intro h
  have h0 := h "bought 0 kg rice rs 100"
  have hq : (parse_transaction_text "bought 0 kg rice rs 100").quantity = 0 := by decide
  omega

/-! ### C2: amount extraction takes the leftmost currency-marked number -/

theorem matchAmountAt_nil : matchAmountAt [] = none := by decide

theorem findAmount_eq_some_iff :
    ∀ (l : List Char) (v : ℚ), findAmount l = some v ↔
      ∃ i, matchAmountAt (l.drop i) = some v ∧
        ∀ j, j < i → matchAmountAt (l.drop j) = none := by
  intro l
  induction l with
  | nil =>
    intro v
    simp [findAmount, matchAmountAt_nil]
  | cons c rest ih =>
    intro v
    unfold findAmount
    cases h : matchAmountAt (c :: rest) with
    | some w =>
      simp only [Option.some.injEq]
      constructor
      · rintro rfl
        exact ⟨0, h, fun j hj => absurd hj (Nat.not_lt_zero j)⟩
      · rintro ⟨i, hi, hmin⟩
        cases i with
        | zero => simpa [h] using hi
        | succ i => simpa [h] using hmin 0 (Nat.succ_pos i)
    | none =>
      rw [ih v]
      constructor
      · rintro ⟨i, hi, hmin⟩
        refine ⟨i + 1, by simpa using hi, fun j hj => ?_⟩
        cases j with
        | zero => exact h
        | succ j => simpa using hmin j (Nat.lt_of_succ_lt_succ hj)
      · rintro ⟨i, hi, hmin⟩
        cases i with
        | zero => simp only [List.drop_zero] at hi; exact absurd hi (by simp [h])
        | succ i =>
          refine ⟨i, by simpa using hi, fun j hj => ?_⟩
          simpa using hmin (j + 1) (Nat.succ_lt_succ hj)

theorem findAmount_eq_none_iff :
    ∀ l : List Char, findAmount l = none ↔
      ∀ i, matchAmountAt (l.drop i) = none := by
  intro l
  induction l with
  | nil => simp [findAmount, matchAmountAt_nil]
  | cons c rest ih =>
    unfold findAmount
    cases h : matchAmountAt (c :: rest) with
    | some w =>
      simp only [reduceCtorEq, false_iff, not_forall]
      exact ⟨0, by simp [h]⟩
    | none =>
      rw [ih]
      constructor
      · intro hall i
        cases i with
        | zero => exact h
        | succ i => simpa using hall i
      · intro hall i
        simpa using hall (i + 1)

/-- C2: the extractor returns the value of the leftmost occurrence of
the currency-marked-number pattern (first start position, first
alternative preferred at a position) and 0.0 when no position matches;
the marker-before, marker-after and symbol phrasings each yield the
number exactly. -/
theorem amount_extraction_spec :
    (∀ (l : List Char) (v : ℚ), findAmount l = some v ↔
        ∃ i, matchAmountAt (l.drop i) = some v ∧
          ∀ j, j < i → matchAmountAt (l.drop j) = none)
  ∧ (∀ l : List Char, findAmount l = none ↔ ∀ i, matchAmountAt (l.drop i) = none)
  ∧ (∀ text : String, (parse_transaction_text text).amount =
      (findAmount (text.toList.map toLowerAscii)).getD 0)
  ∧ (parse_transaction_text "sold rice rs 250").amount = 250
  ∧ (parse_transaction_text "sold 250 rs rice").amount = 250
  ∧ (parse_transaction_text "₹250 of sugar").amount = 250
  ∧ (parse_transaction_text "no money here").amount = 0 :=
  ⟨findAmount_eq_some_iff, findAmount_eq_none_iff, fun _ => rfl,
   by decide, by decide, by decide, by decide⟩

/-- C2 (witness): the leftmost-match characterization applied at a
concrete input. -/
theorem amount_extraction_witness :
    findAmount ['r', 's', ' ', '2', '5', '0'] = some 250 :=
  (amount_extraction_spec.1 ['r', 's', ' ', '2', '5', '0'] 250).mpr
    ⟨0, by decide, fun j hj => absurd hj (Nat.not_lt_zero j)⟩

/-! ### C3: the purchase upsert -/

theorem lookupInv_removeItem_self (name : String) :
    ∀ inv : List InvRow, lookupInv (removeItem name inv) name = none := by
  intro inv
  induction inv with
  | nil => rfl
  | cons r rest ih =>
    unfold removeItem
    split
    · exact ih
    · next hne => simpa [lookupInv, List.find?_cons, hne] using ih

theorem lookupInv_removeItem_other {name other : String} (hne : other ≠ name) :
    ∀ inv : List InvRow, lookupInv (removeItem name inv) other = lookupInv inv other := by
  intro inv
  induction inv with
  | nil => rfl
  | cons r rest ih =>
    unfold removeItem
    split
    · next heq =>
      have : ¬ r.item_name = other := fun h => hne (h ▸ heq)
      simpa [lookupInv, List.find?_cons, this] using ih
    · by_cases h : r.item_name = other
      · simp [lookupInv, List.find?_cons, h]
      · simpa [lookupInv, List.find?_cons, h] using ih

/-- C3 (amended): a purchase upsert always writes the row for the item
with the summed quantity, the fresh unit price and timestamp, and
reorder_level set to 10 — including over an existing row, whose previous
reorder_level is overwritten rather than preserved; rows of other items
are untouched; and on the purchase path (with a nonzero extracted
quantity) `process_input` performs exactly this upsert with unit price
amount/quantity. -/
theorem purchase_upsert_spec (inv : List InvRow) (name : String) (q : ℤ)
    (unit_price : ℚ) (ts : ℕ) :
    (∀ r, lookupInv inv name = some r →
      lookupInv (purchaseUpsert inv name q unit_price ts) name =
        some ⟨name, r.quantity + q, 10, unit_price, ts⟩)
  ∧ (lookupInv inv name = none →
      lookupInv (purchaseUpsert inv name q unit_price ts) name =
        some ⟨name, q, 10, unit_price, ts⟩)
  ∧ (∀ other, other ≠ name →
      lookupInv (purchaseUpsert inv name q unit_price ts) other = lookupInv inv other)
  ∧ (∀ (now : ℕ) (st : DBState) (text : String),
      (parse_transaction_text text).type = "purchase" →
      (parse_transaction_text text).quantity ≠ 0 →
      (process_input now st text).2.inventory =
        purchaseUpsert st.inventory (parse_transaction_text text).item
          ((parse_transaction_text text).quantity : ℤ)
          ((parse_transaction_text text).amount /
            ((parse_transaction_text text).quantity : ℚ)) now) := by
  refine ⟨?_, ?_, ?_, ?_⟩
  · intro r hr
    have hr' : List.find? (fun r => decide (r.item_name = name)) inv = some r := hr
    unfold purchaseUpsert lookupInv
    rw [List.find?_append]
    have h1 := lookupInv_removeItem_self name inv
    unfold lookupInv at h1
    simp [h1, hr']
  · intro hr
    have hr' : List.find? (fun r => decide (r.item_name = name)) inv = none := hr
    unfold purchaseUpsert lookupInv
    rw [List.find?_append]
    have h1 := lookupInv_removeItem_self name inv
    unfold lookupInv at h1
    simp [h1, hr']
  · intro other hne
    unfold purchaseUpsert lookupInv
    rw [List.find?_append]
    have h1 := lookupInv_removeItem_other hne inv
    unfold lookupInv at h1
    rw [h1]
    cases h : List.find? (fun r => decide (r.item_name = other)) inv with
    | some r => rfl
    | none => simp [Ne.symm hne]
  · intro now st text htype hq
    have htext : ¬ text = "" := by
      intro h
      rw [h] at htype
      exact absurd htype (by decide)
    have hsale : ¬ (parse_transaction_text text).type = "sale" := by
      rw [htype]; decide
    have hqq : ¬ ((parse_transaction_text text).quantity : ℚ) = 0 :=
      Nat.cast_ne_zero.mpr hq
    simp [process_input, htext, invUpdate, hsale, pyDivQ, hqq, Except.map]

/-- C3 (counterexample): the existing reorder_level (here 7) is not left
unchanged by a purchase upsert — the replacement row carries
reorder_level 10. -/
theorem purchase_upsert_counterexample :
    (lookupInv (purchaseUpsert [⟨"rice", 5, 7, 2, 0⟩] "rice" 2 50 1) "rice").map
        InvRow.reorder_level ≠
      (lookupInv [⟨"rice", 5, 7, 2, 0⟩] "rice").map InvRow.reorder_level := by
  decide

/-- C3 (witness): the amended upsert law evaluated on a concrete
existing row. -/
theorem purchase_upsert_witness :
    lookupInv (purchaseUpsert [⟨"rice", 5, 7, 2, 0⟩] "rice" 3 4 9) "rice" =
      some ⟨"rice", 5 + 3, 10, 4, 9⟩ :=
  (purchase_upsert_spec [⟨"rice", 5, 7, 2, 0⟩] "rice" 3 4 9).1 ⟨"rice", 5, 7, 2, 0⟩
    (by decide)

/-! ### C4: the anomaly threshold mean + 3·std -/

theorem listPopVar_nonneg (l : List ℚ) : 0 ≤ listPopVar l := by
  unfold listPopVar
  apply div_nonneg
  · apply List.sum_nonneg
    intro x hx
    obtain ⟨a, -, rfl⟩ := List.mem_map.mp hx
    positivity
  · exact Nat.cast_nonneg _

theorem fraudSuspectedB_iff (c : ℚ) (l : List ℚ) :
    fraudSuspectedB c l = true ↔
      (listMean l : ℝ) + 3 * Real.sqrt (listPopVar l) < (c : ℝ) := by
  unfold fraudSuspectedB
  rw [decide_eq_true_iff]
  have hv : (0 : ℝ) ≤ ((listPopVar l : ℚ) : ℝ) := by exact_mod_cast listPopVar_nonneg l
  have hs : (0 : ℝ) ≤ Real.sqrt ((listPopVar l : ℚ) : ℝ) := Real.sqrt_nonneg _
  have hsq : Real.sqrt ((listPopVar l : ℚ) : ℝ) ^ 2 = ((listPopVar l : ℚ) : ℝ) :=
    Real.sq_sqrt hv
  constructor
  · rintro ⟨h1, h2⟩
    have h1' : ((listMean l : ℚ) : ℝ) < (c : ℝ) := by exact_mod_cast h1
    have h2' : (9 : ℝ) * ((listPopVar l : ℚ) : ℝ) <
        ((c : ℝ) - ((listMean l : ℚ) : ℝ)) ^ 2 := by exact_mod_cast h2
    have h3 : (3 * Real.sqrt ((listPopVar l : ℚ) : ℝ)) ^ 2 <
        ((c : ℝ) - ((listMean l : ℚ) : ℝ)) ^ 2 := by
      calc (3 * Real.sqrt ((listPopVar l : ℚ) : ℝ)) ^ 2
          = 9 * ((listPopVar l : ℚ) : ℝ) := by rw [mul_pow, hsq]; norm_num
        _ < _ := h2'
    have h4 := lt_of_pow_lt_pow_left₀ 2 (by linarith) h3
    linarith
  · intro h
    have h4 : 3 * Real.sqrt ((listPopVar l : ℚ) : ℝ) <
        (c : ℝ) - ((listMean l : ℚ) : ℝ) := by linarith
    have h1 : ((listMean l : ℚ) : ℝ) < (c : ℝ) := by nlinarith
    have h3 : (9 : ℝ) * ((listPopVar l : ℚ) : ℝ) <
        ((c : ℝ) - ((listMean l : ℚ) : ℝ)) ^ 2 := by nlinarith
    exact ⟨by exact_mod_cast h1, by exact_mod_cast h3⟩

theorem floorAddSqrtQ_eq (A W : ℚ) (hW : 0 ≤ W) :
    floorAddSqrtQ A W = ⌊(A : ℝ) + Real.sqrt ((W : ℚ) : ℝ)⌋ := by
  have hd : 0 < W.den := W.den_pos
  have hdR : (0 : ℝ) < (W.den : ℝ) := by exact_mod_cast hd
  have hnum : (0 : ℤ) ≤ W.num := Rat.num_nonneg.mpr hW
  have hWR : (0 : ℝ) ≤ ((W : ℚ) : ℝ) := by exact_mod_cast hW
  set n : ℕ := W.num.toNat * W.den with hn
  set s : ℕ := Nat.sqrt n with hs
  -- the cast value of W as n / den²
  have hWn : ((W : ℚ) : ℝ) = (n : ℝ) * ((W.den : ℝ)⁻¹) ^ 2 := by
    have hden : (W.den : ℝ) ≠ 0 := ne_of_gt hdR
    have h2 : (W.num.toNat : ℝ) = (W.num : ℝ) := by
      exact_mod_cast congrArg (Int.cast : ℤ → ℝ) (Int.toNat_of_nonneg hnum)
    have h1 : ((W : ℚ) : ℝ) = (W.num : ℝ) / (W.den : ℝ) := by
      rw [Rat.cast_def]
    have h3 : (n : ℝ) = (W.num : ℝ) * (W.den : ℝ) := by
      rw [hn]
      rw [Nat.cast_mul, h2]
    rw [h1, h3]
    field_simp
    ring
  -- √W = √n / den
  have hsqrtW : Real.sqrt ((W : ℚ) : ℝ) = Real.sqrt (n : ℝ) * (W.den : ℝ)⁻¹ := by
    rw [hWn, Real.sqrt_mul (Nat.cast_nonneg n), Real.sqrt_sq (by positivity)]
  -- bracket √n between s and s+1
  have hlow : (s : ℝ) ≤ Real.sqrt (n : ℝ) := by
    rw [Real.le_sqrt (Nat.cast_nonneg s) (Nat.cast_nonneg n)]
    exact_mod_cast Nat.sqrt_le' n
  have hhigh : Real.sqrt (n : ℝ) < (s : ℝ) + 1 := by
    rw [Real.sqrt_lt' (by positivity)]
    exact_mod_cast Nat.lt_succ_sqrt' n
  set x : ℝ := (A : ℝ) + Real.sqrt ((W : ℚ) : ℝ) with hx
  set k0 : ℤ := ⌊A + (s : ℚ) / (W.den : ℚ)⌋ with hk0
  have hk0R : k0 = ⌊(A : ℝ) + (s : ℝ) / (W.den : ℝ)⌋ := by
    rw [hk0, ← Rat.floor_cast (α := ℝ)]
    push_cast
    rfl
  -- k0 ≤ ⌊x⌋
  have hfloor_lb : k0 ≤ ⌊x⌋ := by
    rw [hk0R]
    apply Int.floor_mono
    rw [hx, hsqrtW]
    have : (s : ℝ) / (W.den : ℝ) ≤ Real.sqrt (n : ℝ) * (W.den : ℝ)⁻¹ := by
      rw [div_eq_mul_inv]
      exact mul_le_mul_of_nonneg_right hlow (by positivity)
    linarith
  -- ⌊x⌋ ≤ k0 + 1
  have hfloor_ub : ⌊x⌋ ≤ k0 + 1 := by
    have hxle : x ≤ ((A : ℝ) + (s : ℝ) / (W.den : ℝ)) + 1 := by
      rw [hx, hsqrtW]
      have h1 : Real.sqrt (n : ℝ) * (W.den : ℝ)⁻¹ ≤ ((s : ℝ) + 1) * (W.den : ℝ)⁻¹ :=
        mul_le_mul_of_nonneg_right (le_of_lt hhigh) (by positivity)
      have h2 : ((s : ℝ) + 1) * (W.den : ℝ)⁻¹ ≤ (s : ℝ) / (W.den : ℝ) + 1 := by
        rw [add_mul, div_eq_mul_inv]
        have : (W.den : ℝ)⁻¹ ≤ 1 := by
          rw [inv_le_one_iff₀]
          right
          exact_mod_cast hd
        linarith
      linarith
    calc ⌊x⌋ ≤ ⌊((A : ℝ) + (s : ℝ) / (W.den : ℝ)) + 1⌋ := Int.floor_mono hxle
      _ = k0 + 1 := by rw [Int.floor_add_one, hk0R]
  -- the A - 1 < k0 sign fact
  have hk0A : (A : ℝ) - 1 < (k0 : ℝ) := by
    have h1 : (A : ℝ) + (s : ℝ) / (W.den : ℝ) - 1 < (k0 : ℝ) := by
      rw [hk0R]
      have := Int.sub_one_lt_floor ((A : ℝ) + (s : ℝ) / (W.den : ℝ))
      linarith
    have h2 : (0 : ℝ) ≤ (s : ℝ) / (W.den : ℝ) := by positivity
    linarith
  have hgoal : floorAddSqrtQ A W =
      if ((k0 : ℚ) + 1 - A) ^ 2 ≤ W then k0 + 1 else k0 := rfl
  rw [hgoal]
  split
  · next hc =>
    have hcR : (((k0 : ℚ) + 1 : ℚ) : ℝ) - (A : ℝ) ≤ Real.sqrt ((W : ℚ) : ℝ) := by
      by_cases hsgn : (0 : ℝ) ≤ (((k0 : ℚ) + 1 : ℚ) : ℝ) - (A : ℝ)
      · rw [show (((k0 : ℚ) + 1 : ℚ) : ℝ) - (A : ℝ) = (((k0 + 1 : ℚ) - A : ℚ) : ℝ) by
          push_cast; ring]
        rw [show Real.sqrt ((W : ℚ) : ℝ) = Real.sqrt ((W : ℚ) : ℝ) from rfl]
        apply (Real.le_sqrt (by rw [show (((k0 + 1 : ℚ) - A : ℚ) : ℝ) =
            (((k0 : ℚ) + 1 : ℚ) : ℝ) - (A : ℝ) by push_cast; ring]; exact hsgn) hWR).mpr
        exact_mod_cast hc
      · have := Real.sqrt_nonneg ((W : ℚ) : ℝ)
        linarith
    have hle : ((k0 + 1 : ℤ) : ℝ) ≤ x := by
      rw [hx]
      push_cast
      push_cast at hcR
      linarith
    have := Int.le_floor.mpr hle
    omega
  · next hc =>
    push_neg at hc
    have hpos : (0 : ℝ) < (((k0 : ℚ) + 1 : ℚ) : ℝ) - (A : ℝ) := by
      push_cast
      linarith
    have hcR : Real.sqrt ((W : ℚ) : ℝ) < (((k0 : ℚ) + 1 : ℚ) : ℝ) - (A : ℝ) := by
      rw [Real.sqrt_lt' hpos]
      have : ((W : ℚ) : ℝ) < ((((k0 + 1 : ℚ) - A) ^ 2 : ℚ) : ℝ) := by exact_mod_cast hc
      calc ((W : ℚ) : ℝ) < ((((k0 + 1 : ℚ) - A) ^ 2 : ℚ) : ℝ) := this
        _ = ((((k0 : ℚ) + 1 : ℚ) : ℝ) - (A : ℝ)) ^ 2 := by push_cast; ring
    have hlt : x < ((k0 + 1 : ℤ) : ℝ) := by
      rw [hx]
      push_cast
      push_cast at hcR
      linarith
    have h2 : ⌊x⌋ < k0 + 1 := Int.floor_lt.mpr (by push_cast; push_cast at hlt; linarith)
    omega

theorem round2Threshold_eq (l : List ℚ) :
    ((round2Threshold l : ℚ) : ℝ) =
      ((⌊100 * ((listMean l : ℝ) + 3 * Real.sqrt (listPopVar l)) + 1 / 2⌋ : ℤ) : ℝ) / 100 := by
  unfold round2Threshold
  have h90 : (0 : ℚ) ≤ 90000 * listPopVar l :=
    mul_nonneg (by norm_num) (listPopVar_nonneg l)
  push_cast
  rw [floorAddSqrtQ_eq _ _ h90]
  have hsqrt : Real.sqrt (((90000 * listPopVar l : ℚ) : ℚ) : ℝ) =
      300 * Real.sqrt ((listPopVar l : ℚ) : ℝ) := by
    push_cast
    rw [show ((90000 : ℝ) * ((listPopVar l : ℚ) : ℝ)) =
        (300 : ℝ) ^ 2 * ((listPopVar l : ℚ) : ℝ) by norm_num]
    rw [Real.sqrt_mul (by positivity), Real.sqrt_sq (by norm_num)]
  have harg : ((100 * listMean l + 1 / 2 : ℚ) : ℝ) +
      Real.sqrt (((90000 * listPopVar l : ℚ) : ℚ) : ℝ) =
      100 * (((listMean l : ℚ) : ℝ) + 3 * Real.sqrt ((listPopVar l : ℚ) : ℝ)) + 1 / 2 := by
    rw [hsqrt]
    push_cast
    ring
  rw [harg]

/-- C4: with at least 10 historical sale amounts, the detector flags the
transaction exactly when it strictly exceeds mean + 3·(population std)
of the history; when flagged, the reason embeds the amount and the
threshold rounded to two decimals (the rendered rounded threshold being
exactly ⌊100·(μ + 3σ) + 1/2⌋ / 100), and otherwise the reason is the
fixed within-normal-range message. -/
theorem fraud_detection_spec (current : ℚ) (hist : List ℚ) (h : 10 ≤ hist.length) :
    ((fraud_detection current hist).fraud_suspected = true ↔
      (listMean hist : ℝ) + 3 * Real.sqrt (listPopVar hist) < (current : ℝ))
  ∧ ((fraud_detection current hist).fraud_suspected = true →
      (fraud_detection current hist).reason =
        "Transaction amount (₹" ++ pyFloatStr current ++
          ") exceeds normal range (₹" ++ pyFloatStr (round2Threshold hist) ++ ")")
  ∧ ((fraud_detection current hist).fraud_suspected = false →
      (fraud_detection current hist).reason = "Transaction within normal range")
  ∧ ((round2Threshold hist : ℝ) =
      ((⌊100 * ((listMean hist : ℝ) + 3 * Real.sqrt (listPopVar hist)) + 1 / 2⌋ : ℤ) : ℝ)
        / 100) := by
  have hlen : ¬ hist.length < 10 := by omega
  have hfd : fraud_detection current hist =
      ⟨fraudSuspectedB current hist,
        if fraudSuspectedB current hist then
          "Transaction amount (₹" ++ pyFloatStr current ++
            ") exceeds normal range (₹" ++ pyFloatStr (round2Threshold hist) ++ ")"
        else "Transaction within normal range"⟩ := by
    simp [fraud_detection, hlen]
  refine ⟨?_, ?_, ?_, round2Threshold_eq hist⟩
  · rw [hfd]
    exact fraudSuspectedB_iff current hist
  · intro hsus
    rw [hfd] at hsus ⊢
    simp only at hsus
    simp [hsus]
  · intro hsus
    rw [hfd] at hsus ⊢
    simp only at hsus
    simp [hsus]

/-- C4 (witness): the spec's concrete instance — history with mean 100
and population standard deviation 20, current amount 200 — is flagged. -/
theorem fraud_detection_witness :
    10 ≤ ([80, 80, 80, 80, 80, 120, 120, 120, 120, 120] : List ℚ).length ∧
      (fraud_detection 200 [80, 80, 80, 80, 80, 120, 120, 120, 120, 120]).fraud_suspected
        = true := by
  refine ⟨by decide, ?_⟩
  have hmean : listMean [80, 80, 80, 80, 80, 120, 120, 120, 120, 120] = 100 := by
    norm_num [listMean, List.sum_cons, List.sum_nil]
  have hvar : listPopVar [80, 80, 80, 80, 80, 120, 120, 120, 120, 120] = 400 := by
    unfold listPopVar
    rw [hmean]
    norm_num [List.sum_cons, List.sum_nil]
  apply (fraud_detection_spec 200 [80, 80, 80, 80, 80, 120, 120, 120, 120, 120]
    (by decide)).1.mpr
  rw [hmean, hvar]
  have h400 : Real.sqrt (((400 : ℚ) : ℚ) : ℝ) = 20 := by
    rw [show (((400 : ℚ) : ℚ) : ℝ) = (20 : ℝ) ^ 2 by norm_num]
    exact Real.sqrt_sq (by norm_num)
  rw [h400]
  norm_num

/-! ### C5: the 10-sample hard floor -/

/-- C5: with fewer than 10 historical sale amounts the detector always
returns fraud_suspected = false with reason "Insufficient data",
whatever the current amount. -/
theorem fraud_insufficient_history (current : ℚ) (hist : List ℚ)
    (h : hist.length < 10) :
    fraud_detection current hist = ⟨false, "Insufficient data"⟩ := by
  simp [fraud_detection, h]

/-- C5 (witness): a single-sample history never triggers the detector,
even for a huge amount. -/
theorem fraud_insufficient_history_witness :
    ([(5 : ℚ)] : List ℚ).length < 10 ∧
      fraud_detection 1000000 [(5 : ℚ)] = ⟨false, "Insufficient data"⟩ :=
  ⟨by decide, fraud_insufficient_history 1000000 [5] (by decide)⟩

/-! ### C6: the 30-day average -/

/-- C6 (amended): on a non-empty window the returned daily_avg_flow is
the 30-divisor average rounded to two decimals (not the raw average),
shortage is predicted exactly when the unrounded average is negative,
and the spec's concrete instance (sales 9000, purchases 12000) yields
−100.0 and a predicted shortage. -/
theorem cash_flow_forecast_spec (w : List (ℚ × String)) (h : w ≠ []) :
    ((cash_flow_forecast w).daily_avg_flow =
      some (pyRound2 ((((w.filter (fun t => t.2 = "sale")).map (fun t => t.1)).sum -
        ((w.filter (fun t => t.2 = "purchase")).map (fun t => t.1)).sum) / 30)))
  ∧ ((cash_flow_forecast w).shortage_predicted = true ↔
      (((w.filter (fun t => t.2 = "sale")).map (fun t => t.1)).sum -
        ((w.filter (fun t => t.2 = "purchase")).map (fun t => t.1)).sum) / 30 < 0)
  ∧ (cash_flow_forecast [((9000 : ℚ), "sale"), ((12000 : ℚ), "purchase")]).daily_avg_flow
      = some (-100)
  ∧ (cash_flow_forecast
      [((9000 : ℚ), "sale"), ((12000 : ℚ), "purchase")]).shortage_predicted = true := by
  have hne : ¬ w.isEmpty := by simpa [List.isEmpty_iff] using h
  refine ⟨by simp [cash_flow_forecast, hne], by simp [cash_flow_forecast, hne], ?_, ?_⟩
  · simp [cash_flow_forecast, pyRound2]
    norm_num
  · simp [cash_flow_forecast]
    norm_num

/-- C6 (counterexample): the returned daily_avg_flow is the rounded
average, which differs from the raw 30-divisor average — one sale of 1
gives 0.03, not 1/30. -/
theorem cash_flow_rounding_counterexample :
    (cash_flow_forecast [((1 : ℚ), "sale")]).daily_avg_flow ≠ some ((1 - 0) / 30) := by
  simp [cash_flow_forecast, pyRound2]
  norm_num

/-- C6 (witness): the amended forecast law evaluated on the concrete
window of the spec example. -/
theorem cash_flow_forecast_witness :
    ([((9000 : ℚ), "sale"), ((12000 : ℚ), "purchase")] : List (ℚ × String)) ≠ [] ∧
      (cash_flow_forecast
        [((9000 : ℚ), "sale"), ((12000 : ℚ), "purchase")]).daily_avg_flow = some (-100) :=
  ⟨by simp,
   (cash_flow_forecast_spec [((9000 : ℚ), "sale"), ((12000 : ℚ), "purchase")]
     (by simp)).2.2.1⟩

/-! ### C7: the empty window -/

/-- C7: on an empty window the forecaster returns no shortage, the
insufficient-data recommendation, and no daily_avg_flow field at all
(modelled as the `none` field value). -/
theorem cash_flow_empty_window :
    cash_flow_forecast [] = ⟨false, none, "Insufficient data"⟩ := rfl

/-! ### C8: alert aggregation -/

theorem inventory_alert_items_of_not_low (inv : List InvRow)
    (h : (inventory_alert inv).stock_low = false) :
    (inventory_alert inv).items_to_reorder = [] := by
  simp only [inventory_alert, decide_eq_false_iff_not, Nat.not_lt,
    Nat.le_zero, List.length_eq_zero] at h
  simp [inventory_alert, h]

/-- C8: for any forecaster and detector outputs and any monitor output
(produced by the monitor from an inventory table), the aggregated list
is exactly: the severity-high cash-flow alert iff shortage is predicted,
then one severity-medium inventory alert naming each reorder item in the
monitor's order, then the severity-critical fraud alert carrying the
detector's reason iff fraud is suspected — and nothing else. -/
theorem alert_aggregation_spec (cf : CFResult) (inv : List InvRow) (fr : FraudResult) :
    generate_alerts cf (inventory_alert inv) fr =
      (if cf.shortage_predicted then [⟨"cash_flow", cf.recommendation, "high"⟩] else [])
      ++ ((inventory_alert inv).items_to_reorder.map
          (fun it => ⟨"inventory", "Low stock: " ++ it.item ++ " - Reorder needed",
            "medium"⟩))
      ++ (if fr.fraud_suspected then [⟨"fraud", fr.reason, "critical"⟩] else []) := by
  cases h : (inventory_alert inv).stock_low with
  | true => simp [generate_alerts, h]
  | false => simp [generate_alerts, h, inventory_alert_items_of_not_low inv h]

/-! ### C9: missing or empty input -/

/-- C9: a request whose text is missing or empty (`data.get('text', '')`
yields `""` in both cases) is rejected with the 400 client error before
any extraction, write or analysis, leaving the store unchanged. -/
theorem empty_input_rejected (now : ℕ) (st : DBState) :
    process_input now st "" = (ApiResponse.clientError "No input provided", st) := rfl

/-! ### C10: reachable division by zero -/

/-- C10: an explicit zero quantity phrase in a purchase utterance
extracts quantity = 0, so the unit-price division amount/quantity in the
purchase path raises ZeroDivisionError and the request ends in the 500
error branch — reachable from the extractor's own output range. -/
theorem zero_quantity_division_crash :
    (parse_transaction_text "bought 0 kg rice rs 100").quantity = 0
  ∧ (parse_transaction_text "bought 0 kg rice rs 100").type = "purchase"
  ∧ (parse_transaction_text "bought 0 kg rice rs 100").amount = 100
  ∧ process_input 7 ⟨[], []⟩ "bought 0 kg rice rs 100" =
      (ApiResponse.serverError "float division by zero", ⟨[], []⟩) :=
  ⟨by decide, by decide, by decide, by decide⟩

end Cashflow
